import Mathlib

/-!
Shallow embedding of the JePPIX statistics subsystem
(`stat_analysis/stat_utils.py`, `stat_analysis/models/report.py`,
`stat_analysis/models/statistics.py`, plus the `Job`/`Order` models it reads).

Calendar dates are triples compared lexicographically, exactly as Python
`datetime.date` compares; datetimes are a date plus a second-of-day, compared
lexicographically, as Python `datetime.datetime` compares.  Django coerces a
`datetime.date` bound to midnight before comparing it with a `DateTimeField`
(`DateTimeField.to_python` on a date returns `datetime(y, m, d)`), which the
embedding mirrors in `dateLeDt` / `dtLeDate`.  `Decimal` and `float` values
are embedded as exact rationals.  Raised exceptions become `Except`/an error
component; Django tables become association lists keyed by primary key, and
`get_or_create` followed by field assignment and `save` becomes `upsert`.
-/

namespace JePPIX

/-- Calendar date, as Python `datetime.date`: compared lexicographically. -/
structure Date where
  year : Int
  month : Nat
  day : Nat
deriving DecidableEq

/-- Python `date.__lt__`: lexicographic on (year, month, day). -/
def Date.ltb (a b : Date) : Bool :=
  if a.year = b.year then
    if a.month = b.month then decide (a.day < b.day)
    else decide (a.month < b.month)
  else decide (a.year < b.year)

/-- Python `min(a, b)`: returns the first argument unless the second is smaller. -/
def Date.minD (a b : Date) : Date := if Date.ltb b a then b else a

/-- Python `max(a, b)`: returns the first argument unless the second is larger. -/
def Date.maxD (a b : Date) : Date := if Date.ltb a b then b else a

/-- Python `datetime.datetime`: a date plus the second of the day. -/
structure DateTime where
  date : Date
  sec : Nat
deriving DecidableEq

/-- Python `datetime.__le__`: lexicographic on (date, second-of-day). -/
def DateTime.leb (a b : DateTime) : Bool :=
  Date.ltb a.date b.date || (a.date = b.date && decide (a.sec ≤ b.sec))

/-- Django coerces a `date` filter value on a `DateTimeField` to midnight:
`start_date <= ts` becomes `datetime(start) <= ts`. -/
def dateLeDt (d : Date) (t : DateTime) : Bool := DateTime.leb ⟨d, 0⟩ t

/-- Django coerces a `date` filter value on a `DateTimeField` to midnight:
`ts <= end_date` becomes `ts <= datetime(end)`. -/
def dtLeDate (t : DateTime) (d : Date) : Bool := DateTime.leb t ⟨d, 0⟩

/-- Leap-year test, as Python `calendar.isleap`. -/
def isLeap (y : Int) : Bool := (y % 4 == 0 && y % 100 != 0) || y % 400 == 0

/-- Days in the year strictly before month `m` (1-based), non-leap. -/
def daysBeforeMonth (m : Nat) : Nat :=
  match m with
  | 1 => 0 | 2 => 31 | 3 => 59 | 4 => 90 | 5 => 120 | 6 => 151
  | 7 => 181 | 8 => 212 | 9 => 243 | 10 => 273 | 11 => 304 | _ => 334

/-- Proleptic Gregorian ordinal of a date, as Python `date.toordinal`. -/
def Date.toOrdinal (d : Date) : Int :=
  let y := d.year - 1
  365 * y + y / 4 - y / 100 + y / 400
    + (daysBeforeMonth d.month : Int)
    + (if 2 < d.month && isLeap d.year then 1 else 0)
    + (d.day : Int)

/-- Python `(a - b).total_seconds()` for two datetimes, in seconds. -/
def diffSec (a b : DateTime) : Int :=
  86400 * (a.date.toOrdinal - b.date.toOrdinal) + ((a.sec : Int) - (b.sec : Int))

/-- The errors the resolver can raise: `ValueError("Invalid quarter...")`
from the tag check (the spec's `InvalidQuarter`), and the
`ValueError("year ... is out of range")` that the `datetime.date`
constructor raises for a year outside `MINYEAR..MAXYEAR` = 1..9999. -/
inductive StatErr where
  | invalidQuarter
  | yearOutOfRange
deriving DecidableEq

/-- Function `get_quarter_dates(quarter, year)` from `stat_utils.py`.  The
tag is tested first; inside a matched branch `datetime.date(year, m, d)`
raises for a year outside 1..9999 (the month and day arguments are fixed
valid literals, so only the year can be rejected). -/
def get_quarter_dates (quarter : String) (year : Int) :
    Except StatErr (Date × Date) :=
  if quarter = "Q1" then
    if 1 ≤ year ∧ year ≤ 9999 then .ok (⟨year, 1, 1⟩, ⟨year, 3, 31⟩)
    else .error .yearOutOfRange
  else if quarter = "Q2" then
    if 1 ≤ year ∧ year ≤ 9999 then .ok (⟨year, 4, 1⟩, ⟨year, 6, 30⟩)
    else .error .yearOutOfRange
  else if quarter = "Q3" then
    if 1 ≤ year ∧ year ≤ 9999 then .ok (⟨year, 7, 1⟩, ⟨year, 9, 30⟩)
    else .error .yearOutOfRange
  else if quarter = "Q4" then
    if 1 ≤ year ∧ year ≤ 9999 then .ok (⟨year, 10, 1⟩, ⟨year, 12, 31⟩)
    else .error .yearOutOfRange
  else .error .invalidQuarter

/-- The `Report` model row: type tag, two (quarter, year) endpoints, and a
primary key. -/
structure Report where
  id : Nat
  report_type : String
  quarter_from : String
  year_from : Int
  quarter_to : String
  year_to : Int
deriving DecidableEq

/-- Function `get_date_range_for_report(report)` from `stat_utils.py`; a raised
`InvalidQuarter` from either endpoint propagates. -/
def get_date_range_for_report (r : Report) : Except StatErr (Date × Date) :=
  match get_quarter_dates r.quarter_from r.year_from with
  | .error e => .error e
  | .ok (start_date_from, end_date_from) =>
    match get_quarter_dates r.quarter_to r.year_to with
    | .error e => .error e
    | .ok (start_date_to, end_date_to) =>
      .ok (Date.minD start_date_from start_date_to,
           Date.maxD end_date_from end_date_to)

/-- The `execution.Job` row fields read by the aggregators. -/
structure Job where
  state : String
  job_type : String
  starting_date : DateTime
  completion_time : Option Rat
deriving DecidableEq

/-- The `provider_services.Order` row fields read by the aggregators
(`customer` and `account_manager` are foreign keys held as primary keys). -/
structure OrderRec where
  customer : Nat
  account_manager : Nat
  status : String
  created_at : DateTime
  completed_at : Option DateTime
  total_price : Rat
deriving DecidableEq

/-- The `auth.User` row fields read by the user aggregator. -/
structure UserRec where
  id : Nat
  last_login : Option DateTime
  date_joined : DateTime
deriving DecidableEq

/-- The `provider_services.AccountManager` row: primary key plus the
one-to-one `user` foreign key. -/
structure AccountManager where
  id : Nat
  user : Nat
deriving DecidableEq

/-- The `provider_services.Customer` row: primary key plus the one-to-one
`user` foreign key. -/
structure Customer where
  id : Nat
  user : Nat
deriving DecidableEq

/-- The read-only underlying data the aggregators query. -/
structure DB where
  jobs : List Job
  orders : List OrderRec
  users : List UserRec
  managers : List AccountManager
  customers : List Customer
deriving DecidableEq

/-- The fields of a `JobReportResult` row (minus the report key). -/
structure JobRow where
  total_jobs : Nat
  avg_completion_time_regular : Rat
  avg_completion_time_wafer_run : Rat
  jobs_created : Nat
  jobs_active : Nat
  jobs_completed : Nat
  jobs_failed : Nat
  jobs_delayed : Nat
deriving DecidableEq

/-- The fields of an `OrderReportResult` row (minus the report key). -/
structure OrderRow where
  total_orders : Nat
  total_revenue : Rat
  average_order_value : Rat
  orders_draft : Nat
  orders_submitted : Nat
  orders_in_progress : Nat
  orders_completed : Nat
  orders_cancelled : Nat
  avg_processing_time : Option Rat
deriving DecidableEq

/-- The fields of a `UserReportResult` row (minus the report key);
the two top fields hold `User` foreign keys. -/
structure UserRow where
  total_active_users : Nat
  new_customers : Nat
  active_account_managers : Nat
  top_performing_account_manager : Option Nat
  top_customer : Option Nat
  total_orders_by_top_manager : Nat
  total_revenue_by_top_manager : Rat
deriving DecidableEq

/-- The three result tables, each an association list keyed by report id. -/
structure Tables where
  jobT : List (Nat × JobRow)
  orderT : List (Nat × OrderRow)
  userT : List (Nat × UserRow)
deriving DecidableEq

/-- Django's `get_or_create(report=...)` followed by assigning every field
and `save()`: update the existing row in place, else append a fresh one. -/
def upsert {α : Type} (t : List (Nat × α)) (k : Nat) (v : α) : List (Nat × α) :=
  if (t.find? (fun p => p.1 = k)).isSome then
    t.map (fun p => if p.1 = k then (k, v) else p)
  else t ++ [(k, v)]

/-- SQL `AVG` over a nullable column: `None` when no non-null value exists,
else the mean of the non-null values. -/
def sqlAvg (vals : List Rat) : Option Rat :=
  if vals.isEmpty then none else some (vals.sum / (vals.length : Rat))

/-- The job queryset `Job.objects.filter(starting_date__gte=start_date,
starting_date__lte=end_date)`. -/
def jobs_in_period (db : DB) (start_date end_date : Date) : List Job :=
  db.jobs.filter fun j =>
    dateLeDt start_date j.starting_date && dtLeDate j.starting_date end_date

/-- The order queryset `Order.objects.filter(created_at__gte=start_date,
created_at__lte=end_date)`. -/
def orders_in_period (db : DB) (start_date end_date : Date) : List OrderRec :=
  db.orders.filter fun o =>
    dateLeDt start_date o.created_at && dtLeDate o.created_at end_date

/-- The `JobReportResult` field values `calculate_job_statistics` computes
for a resolved `[start_date, end_date]` range. -/
def jobRow (db : DB) (start_date end_date : Date) : JobRow :=
  let jobs_in_period := jobs_in_period db start_date end_date
  let completed_jobs := jobs_in_period.filter fun j => j.state = "completed"
  let avg_completion_regular :=
    (sqlAvg ((completed_jobs.filter fun j => j.job_type = "regular").filterMap
      Job.completion_time)).getD 0
  let avg_completion_wafer_run :=
    (sqlAvg ((completed_jobs.filter fun j => j.job_type = "wafer_run").filterMap
      Job.completion_time)).getD 0
  { total_jobs := jobs_in_period.length
    avg_completion_time_regular := avg_completion_regular
    avg_completion_time_wafer_run := avg_completion_wafer_run
    jobs_created := (jobs_in_period.filter fun j => j.state = "created").length
    jobs_active := (jobs_in_period.filter fun j => j.state = "active").length
    jobs_completed := (jobs_in_period.filter fun j => j.state = "completed").length
    jobs_failed := (jobs_in_period.filter fun j => j.state = "failed").length
    jobs_delayed := (jobs_in_period.filter fun j => j.state = "delayed").length }

/-- The `OrderReportResult` field values `calculate_order_statistics` computes
for a resolved range.  `if avg_time:` in the source is Python truthiness on a
timedelta, false exactly on the zero duration — hence the `avg ≠ 0` guard. -/
def orderRow (db : DB) (start_date end_date : Date) : OrderRow :=
  let orders_in_period := orders_in_period db start_date end_date
  let total_orders := orders_in_period.length
  let total_revenue := (orders_in_period.map OrderRec.total_price).sum
  let average_order_value :=
    if 0 < total_orders then total_revenue / (total_orders : Rat) else 0
  let completed_orders := orders_in_period.filter fun o =>
    o.status = "completed" && o.completed_at.isSome
  let avg_processing_time : Option Rat :=
    if completed_orders.isEmpty then none
    else
      match sqlAvg (completed_orders.filterMap fun o =>
        o.completed_at.map fun c => ((diffSec c o.created_at : Int) : Rat)) with
      | none => none
      | some avg_time => if avg_time = 0 then none else some (avg_time / 86400)
  { total_orders := total_orders
    total_revenue := total_revenue
    average_order_value := average_order_value
    orders_draft := (orders_in_period.filter fun o => o.status = "draft").length
    orders_submitted := (orders_in_period.filter fun o => o.status = "submitted").length
    orders_in_progress := (orders_in_period.filter fun o => o.status = "in_progress").length
    orders_completed := (orders_in_period.filter fun o => o.status = "completed").length
    orders_cancelled := (orders_in_period.filter fun o => o.status = "cancelled").length
    avg_processing_time := avg_processing_time }

/-- The queryset `Order.objects.filter(account_manager=manager,
created_at__gte=start_date, created_at__lte=end_date)` built inside the
top-manager loop. -/
def manager_orders (db : DB) (start_date end_date : Date)
    (manager : AccountManager) : List OrderRec :=
  db.orders.filter fun o =>
    o.account_manager = manager.id &&
      (dateLeDt start_date o.created_at && dtLeDate o.created_at end_date)

/-- The in-range order count of one customer, as counted inside the
top-customer loop. -/
def customer_orders (db : DB) (start_date end_date : Date)
    (customer : Customer) : Nat :=
  (db.orders.filter fun o =>
    o.customer = customer.id &&
      (dateLeDt start_date o.created_at && dtLeDate o.created_at end_date)).length

/-- One iteration of the top-manager `for` loop: replace the running top only
on a strictly greater in-range order count. -/
def topManagerStep (db : DB) (start_date end_date : Date)
    (acc : Option Nat × Nat × Rat) (manager : AccountManager) :
    Option Nat × Nat × Rat :=
  let order_count := (manager_orders db start_date end_date manager).length
  let revenue := ((manager_orders db start_date end_date manager).map
    OrderRec.total_price).sum
  if acc.2.1 < order_count then (some manager.user, order_count, revenue) else acc

/-- One iteration of the top-customer `for` loop. -/
def topCustomerStep (db : DB) (start_date end_date : Date)
    (acc : Option Nat × Nat) (customer : Customer) : Option Nat × Nat :=
  let cnt := customer_orders db start_date end_date customer
  if acc.2 < cnt then (some customer.user, cnt) else acc

/-- The `UserReportResult` field values `calculate_user_statistics` computes
for a resolved range. -/
def userRow (db : DB) (start_date end_date : Date) : UserRow :=
  let active_users := db.users.filter fun u =>
    match u.last_login with
    | none => false
    | some t => dateLeDt start_date t && dtLeDate t end_date
  let new_customers := (db.customers.filter fun c =>
    match db.users.find? fun u => u.id = c.user with
    | none => false
    | some u => dateLeDt start_date u.date_joined && dtLeDate u.date_joined end_date).length
  let active_managers := (db.managers.filter fun m =>
    active_users.any fun u => u.id = m.user).length
  let top := db.managers.foldl (topManagerStep db start_date end_date) (none, 0, 0)
  let topC := db.customers.foldl (topCustomerStep db start_date end_date) (none, 0)
  { total_active_users := active_users.length
    new_customers := new_customers
    active_account_managers := active_managers
    top_performing_account_manager := top.1
    top_customer := topC.1
    total_orders_by_top_manager := top.2.1
    total_revenue_by_top_manager := top.2.2 }

/-- Function `calculate_job_statistics(report)`: resolve the range (which may raise),
then upsert the one `JobReportResult` row keyed by the report. -/
def calculate_job_statistics (db : DB) (r : Report) (t : Tables) :
    Except StatErr Tables :=
  match get_date_range_for_report r with
  | .error e => .error e
  | .ok (start_date, end_date) =>
    .ok { t with jobT := upsert t.jobT r.id (jobRow db start_date end_date) }

/-- Function `calculate_order_statistics(report)`. -/
def calculate_order_statistics (db : DB) (r : Report) (t : Tables) :
    Except StatErr Tables :=
  match get_date_range_for_report r with
  | .error e => .error e
  | .ok (start_date, end_date) =>
    .ok { t with orderT := upsert t.orderT r.id (orderRow db start_date end_date) }

/-- Function `calculate_user_statistics(report)`. -/
def calculate_user_statistics (db : DB) (r : Report) (t : Tables) :
    Except StatErr Tables :=
  match get_date_range_for_report r with
  | .error e => .error e
  | .ok (start_date, end_date) =>
    .ok { t with userT := upsert t.userT r.id (userRow db start_date end_date) }

/-- Run one orchestrator step under Python exception semantics: a step after
a raised exception is skipped, and state mutated before the raise is kept. -/
def runStep (f : Tables → Except StatErr Tables) :
    Tables × Option StatErr → Tables × Option StatErr
  | (t, some e) => (t, some e)
  | (t, none) =>
    match f t with
    | .ok u => (u, none)
    | .error e => (t, some e)

/-- Function `calculate_report_statistics(report)`: three independent `if` tests on
`report_type`; a raised `InvalidQuarter` propagates, skipping later steps. -/
def calculate_report_statistics (db : DB) (r : Report) (t : Tables) :
    Tables × Option StatErr :=
  runStep
    (fun u => if r.report_type = "user" ∨ r.report_type = "combined"
      then calculate_user_statistics db r u else .ok u)
    (runStep
      (fun u => if r.report_type = "order" ∨ r.report_type = "combined"
        then calculate_order_statistics db r u else .ok u)
      (runStep
        (fun u => if r.report_type = "job" ∨ r.report_type = "combined"
          then calculate_job_statistics db r u else .ok u)
        (t, none)))

/-- Method `Report.save`: persist the report row itself, then recompute statistics;
an exception from the recomputation propagates out of `save`. -/
def Report.save (db : DB) (reports : List (Nat × Report)) (r : Report)
    (t : Tables) : (List (Nat × Report) × Tables) × Option StatErr :=
  let reports' := upsert reports r.id r
  let (t', err) := calculate_report_statistics db r t
  ((reports', t'), err)

/-- The report with its two (quarter, year) endpoints exchanged. -/
def swapEndpoints (r : Report) : Report :=
  { r with
    quarter_from := r.quarter_to, year_from := r.year_to,
    quarter_to := r.quarter_from, year_to := r.year_from }

/-- The greatest in-range order count over a list of account managers. -/
def maxManagerOrders (db : DB) (s e : Date) (l : List AccountManager) : Nat :=
  l.foldr (fun m acc => max (manager_orders db s e m).length acc) 0

/-- The greatest in-range order count over a list of customers. -/
def maxCustomerOrders (db : DB) (s e : Date) (l : List Customer) : Nat :=
  l.foldr (fun c acc => max (customer_orders db s e c) acc) 0

/-- The arithmetic mean of a list of rationals (0 on the empty list). -/
def listMean (l : List Rat) : Rat := l.sum / (l.length : Rat)

/-- A database with no rows at all. -/
def emptyDB : DB := ⟨[], [], [], [], []⟩

/-- Empty result tables. -/
def emptyTables : Tables := ⟨[], [], []⟩

/-- One in-range completed order whose `completed_at` equals its
`created_at`, so its processing duration is exactly zero. -/
def zeroDurationDB : DB :=
  ⟨[], [⟨1, 1, "completed", ⟨⟨2024, 2, 1⟩, 0⟩, some ⟨⟨2024, 2, 1⟩, 0⟩, 100⟩],
   [], [], []⟩

/-- One job and one order whose timestamps fall at noon (second 43200) on
2024-03-31, the end date of Q1 2024. -/
def endDateDB : DB :=
  ⟨[⟨"active", "regular", ⟨⟨2024, 3, 31⟩, 43200⟩, none⟩],
   [⟨1, 1, "draft", ⟨⟨2024, 3, 31⟩, 43200⟩, none, 100⟩], [], [], []⟩

/-- A report whose type is none of the four recognised tags and whose
from-endpoint carries the invalid tag `Q5`. -/
def metaReport : Report := ⟨1, "metadata", "Q5", 2024, "Q1", 2024⟩

/-- A job-type report whose from-endpoint carries the invalid tag `Q5`. -/
def badJobReport : Report := ⟨1, "job", "Q5", 2024, "Q1", 2024⟩

/-- A job-type report over Q1 2024. -/
def q1JobReport : Report := ⟨1, "job", "Q1", 2024, "Q1", 2024⟩

/-- A report whose type is none of the four recognised tags, with valid
quarters. -/
def summaryReport : Report := ⟨1, "summary", "Q1", 2024, "Q1", 2024⟩

/-- A job-type report whose from-endpoint (Q3 2024) is chronologically after
its to-endpoint (Q1 2023). -/
def backwardsReport : Report := ⟨1, "job", "Q3", 2024, "Q1", 2023⟩

/-- A job-type report whose to-endpoint carries the invalid tag `Q5` while
its from-endpoint has a valid tag but the unrepresentable year 0. -/
def yearZeroReport : Report := ⟨1, "job", "Q1", 0, "Q5", 2024⟩

theorem Date.ltb_asymm {a b : Date} (h : Date.ltb a b = true) :
    Date.ltb b a = false := by
  cases a with
  | mk y1 m1 d1 =>
    cases b with
    | mk y2 m2 d2 =>
      simp only [Date.ltb] at h ⊢
      split_ifs at h ⊢ <;> simp_all <;> omega

theorem Date.eq_of_not_ltb {a b : Date} (h1 : Date.ltb a b = false)
    (h2 : Date.ltb b a = false) : a = b := by
  cases a with
  | mk y1 m1 d1 =>
    cases b with
    | mk y2 m2 d2 =>
      simp only [Date.ltb] at h1 h2
      simp only [Date.mk.injEq]
      split_ifs at h1 h2 <;> simp_all <;> omega

theorem Date.minD_comm (a b : Date) : Date.minD a b = Date.minD b a := by
  simp only [Date.minD]
  cases hab : Date.ltb a b <;> cases hba : Date.ltb b a <;> simp [hab, hba]
  · exact Date.eq_of_not_ltb hab hba
  · exact (Date.eq_of_not_ltb (Date.ltb_asymm hba) (Date.ltb_asymm hab)).symm

theorem Date.maxD_comm (a b : Date) : Date.maxD a b = Date.maxD b a := by
  simp only [Date.maxD]
  cases hab : Date.ltb a b <;> cases hba : Date.ltb b a <;> simp [hab, hba]
  · exact Date.eq_of_not_ltb hab hba
  · exact absurd hba (by simp [Date.ltb_asymm hab])

theorem get_quarter_dates_error_iff (q : String) (y : Int) :
    get_quarter_dates q y = .error .invalidQuarter ↔
      ¬(q = "Q1" ∨ q = "Q2" ∨ q = "Q3" ∨ q = "Q4") := by
  simp only [get_quarter_dates]
  split_ifs <;> simp_all

theorem get_quarter_dates_cases (q : String) (y : Int) :
    (∃ p, get_quarter_dates q y = .ok p) ∨
      ∃ e, get_quarter_dates q y = .error e := by
  cases h : get_quarter_dates q y with
  | error e => exact .inr ⟨e, rfl⟩
  | ok p => exact .inl ⟨p, rfl⟩

theorem get_quarter_dates_ok_of_valid (q : String) (y : Int)
    (hq : q = "Q1" ∨ q = "Q2" ∨ q = "Q3" ∨ q = "Q4")
    (hy : 1 ≤ y ∧ y ≤ 9999) :
    ∃ p, get_quarter_dates q y = .ok p := by
  rcases hq with h | h | h | h <;> subst h <;> simp [get_quarter_dates, hy]

theorem find?_map_upd {α : Type} (t : List (Nat × α)) (k : Nat) (v : α) :
    ((t.map fun p => if p.1 = k then (k, v) else p).find? fun p => p.1 = k)
      = (t.find? fun p => p.1 = k).map fun _ => (k, v) := by
  induction t with
  | nil => rfl
  | cons p rest ih =>
    by_cases h : p.1 = k <;> simp [List.find?_cons, h, ih]

theorem map_upd_of_find?_none {α : Type} (t : List (Nat × α)) (k : Nat) (v : α)
    (h : (t.find? fun p => p.1 = k) = none) :
    (t.map fun p => if p.1 = k then (k, v) else p) = t := by
  induction t with
  | nil => rfl
  | cons p rest ih =>
    by_cases hp : p.1 = k
    · simp [List.find?_cons, hp] at h
    · simp [List.find?_cons, hp] at h
      have h2 : (rest.find? fun p => p.1 = k) = none := by
        rw [List.find?_eq_none]
        intro x hx
        simpa using h x.1 x.2 hx
      simp [hp, ih h2]

theorem keys_map_upd {α : Type} (t : List (Nat × α)) (k : Nat) (v : α) :
    ((t.map fun p => if p.1 = k then (k, v) else p).map Prod.fst)
      = t.map Prod.fst := by
  induction t with
  | nil => rfl
  | cons p rest ih =>
    by_cases hp : p.1 = k <;> simp [hp, ih]

theorem upd_comp_upd {α : Type} (k : Nat) (v : α) :
    ((fun p : Nat × α => if p.1 = k then (k, v) else p) ∘
      fun p : Nat × α => if p.1 = k then (k, v) else p)
    = fun p : Nat × α => if p.1 = k then (k, v) else p := by
  funext p
  by_cases h : p.1 = k <;> simp [h]

theorem upsert_idem {α : Type} (t : List (Nat × α)) (k : Nat) (v : α) :
    upsert (upsert t k v) k v = upsert t k v := by
  cases hf : (t.find? fun p => p.1 = k) with
  | none =>
    have happ : ((t ++ [(k, v)]).find? fun p => p.1 = k) = some (k, v) := by
      rw [List.find?_append, hf]; simp
    simp only [upsert, hf, happ, Option.isSome_none, Option.isSome_some,
      Bool.false_eq_true, if_false, if_true]
    rw [List.map_append, map_upd_of_find?_none t k v hf]
    simp
  | some q =>
    have hm := find?_map_upd t k v
    rw [hf] at hm
    simp only [Option.map_some'] at hm
    simp only [upsert, hf, hm, Option.isSome_some, if_true]
    rw [List.map_map, upd_comp_upd]

theorem get_date_range_ok (r : Report) (p q : Date × Date)
    (h1 : get_quarter_dates r.quarter_from r.year_from = .ok p)
    (h2 : get_quarter_dates r.quarter_to r.year_to = .ok q) :
    get_date_range_for_report r
      = .ok (Date.minD p.1 q.1, Date.maxD p.2 q.2) := by
  simp [get_date_range_for_report, h1, h2]

theorem get_date_range_error_exists_of_invalid (r : Report)
    (h : ¬(r.quarter_from = "Q1" ∨ r.quarter_from = "Q2" ∨
            r.quarter_from = "Q3" ∨ r.quarter_from = "Q4")
       ∨ ¬(r.quarter_to = "Q1" ∨ r.quarter_to = "Q2" ∨
            r.quarter_to = "Q3" ∨ r.quarter_to = "Q4")) :
    ∃ e, get_date_range_for_report r = .error e := by
  rcases h with h | h
  · have he := (get_quarter_dates_error_iff r.quarter_from r.year_from).2 h
    exact ⟨.invalidQuarter, by simp [get_date_range_for_report, he]⟩
  · rcases get_quarter_dates_cases r.quarter_from r.year_from with
      ⟨p, hp⟩ | ⟨e, hp⟩
    · have he := (get_quarter_dates_error_iff r.quarter_to r.year_to).2 h
      exact ⟨.invalidQuarter, by simp [get_date_range_for_report, hp, he]⟩
    · exact ⟨e, by simp [get_date_range_for_report, hp]⟩

theorem get_date_range_invalid_quarter (r : Report)
    (h : ¬(r.quarter_from = "Q1" ∨ r.quarter_from = "Q2" ∨
            r.quarter_from = "Q3" ∨ r.quarter_from = "Q4")
       ∨ ¬(r.quarter_to = "Q1" ∨ r.quarter_to = "Q2" ∨
            r.quarter_to = "Q3" ∨ r.quarter_to = "Q4"))
    (hyf : 1 ≤ r.year_from ∧ r.year_from ≤ 9999)
    (hyt : 1 ≤ r.year_to ∧ r.year_to ≤ 9999) :
    get_date_range_for_report r = .error .invalidQuarter := by
  rcases h with h | h
  · have he := (get_quarter_dates_error_iff r.quarter_from r.year_from).2 h
    simp [get_date_range_for_report, he]
  · have he := (get_quarter_dates_error_iff r.quarter_to r.year_to).2 h
    by_cases hf : r.quarter_from = "Q1" ∨ r.quarter_from = "Q2" ∨
        r.quarter_from = "Q3" ∨ r.quarter_from = "Q4"
    · obtain ⟨p, hp⟩ :=
        get_quarter_dates_ok_of_valid r.quarter_from r.year_from hf hyf
      simp [get_date_range_for_report, hp, he]
    · have hef := (get_quarter_dates_error_iff r.quarter_from r.year_from).2 hf
      simp [get_date_range_for_report, hef]

theorem maxManagerOrders_cons (db : DB) (s e : Date) (m : AccountManager)
    (l : List AccountManager) :
    maxManagerOrders db s e (m :: l)
      = max (manager_orders db s e m).length (maxManagerOrders db s e l) := rfl

theorem topManagerLoop_spec (db : DB) (s e : Date) (l : List AccountManager) :
    ∀ acc : Option Nat × Nat × Rat,
    (maxManagerOrders db s e l ≤ acc.2.1 →
      l.foldl (topManagerStep db s e) acc = acc)
  ∧ (acc.2.1 < maxManagerOrders db s e l →
      ∃ m₀, (l.find? fun m =>
          (manager_orders db s e m).length = maxManagerOrders db s e l) = some m₀
        ∧ (manager_orders db s e m₀).length = maxManagerOrders db s e l
        ∧ l.foldl (topManagerStep db s e) acc
            = (some m₀.user, (manager_orders db s e m₀).length,
               ((manager_orders db s e m₀).map OrderRec.total_price).sum)) := by
  induction l with
  | nil =>
    intro acc
    refine ⟨fun _ => rfl, fun hlt => ?_⟩
    simp only [maxManagerOrders, List.foldr_nil] at hlt
    omega
  | cons m rest ih =>
    intro acc
    constructor
    · intro hle
      rw [maxManagerOrders_cons] at hle
      have hstep : topManagerStep db s e acc m = acc := by
        simp only [topManagerStep]
        rw [if_neg (by omega)]
      rw [List.foldl_cons, hstep]
      exact (ih acc).1 (by omega)
    · intro hlt
      rw [maxManagerOrders_cons] at hlt
      rw [List.foldl_cons]
      by_cases hcm : acc.2.1 < (manager_orders db s e m).length
      · have hstep : topManagerStep db s e acc m
            = (some m.user, (manager_orders db s e m).length,
               ((manager_orders db s e m).map OrderRec.total_price).sum) := by
          simp only [topManagerStep]
          rw [if_pos hcm]
        rw [hstep]
        by_cases hMR : maxManagerOrders db s e rest ≤ (manager_orders db s e m).length
        · have hM : maxManagerOrders db s e (m :: rest)
              = (manager_orders db s e m).length := by
            rw [maxManagerOrders_cons]; omega
          refine ⟨m, ?_, ?_, ?_⟩
          · rw [hM]
            simp [List.find?_cons]
          · rw [hM]
          · exact (ih (some m.user, (manager_orders db s e m).length,
              ((manager_orders db s e m).map OrderRec.total_price).sum)).1 hMR
        · push_neg at hMR
          have hM : maxManagerOrders db s e (m :: rest)
              = maxManagerOrders db s e rest := by
            rw [maxManagerOrders_cons]; omega
          obtain ⟨m₀, hfind, hcnt, hfold⟩ :=
            (ih (some m.user, (manager_orders db s e m).length,
              ((manager_orders db s e m).map OrderRec.total_price).sum)).2 hMR
          refine ⟨m₀, ?_, ?_, hfold⟩
          · rw [hM, List.find?_cons]
            have hne : ¬((manager_orders db s e m).length
                = maxManagerOrders db s e rest) := by omega
            simp only [hne, decide_eq_false, Bool.false_eq_true, if_false]
            exact hfind
          · rw [hM]; exact hcnt
      · push_neg at hcm
        have hstep : topManagerStep db s e acc m = acc := by
          simp only [topManagerStep]
          rw [if_neg (by omega)]
        rw [hstep]
        have hMR : acc.2.1 < maxManagerOrders db s e rest := by omega
        have hM : maxManagerOrders db s e (m :: rest)
            = maxManagerOrders db s e rest := by
          rw [maxManagerOrders_cons]; omega
        obtain ⟨m₀, hfind, hcnt, hfold⟩ := (ih acc).2 hMR
        refine ⟨m₀, ?_, ?_, hfold⟩
        · rw [hM, List.find?_cons]
          have hne : ¬((manager_orders db s e m).length
              = maxManagerOrders db s e rest) := by omega
          simp only [hne, decide_eq_false, Bool.false_eq_true, if_false]
          exact hfind
        · rw [hM]; exact hcnt

theorem maxCustomerOrders_cons (db : DB) (s e : Date) (c : Customer)
    (l : List Customer) :
    maxCustomerOrders db s e (c :: l)
      = max (customer_orders db s e c) (maxCustomerOrders db s e l) := rfl

theorem topCustomerLoop_spec (db : DB) (s e : Date) (l : List Customer) :
    ∀ acc : Option Nat × Nat,
    (maxCustomerOrders db s e l ≤ acc.2 →
      l.foldl (topCustomerStep db s e) acc = acc)
  ∧ (acc.2 < maxCustomerOrders db s e l →
      ∃ c₀, (l.find? fun c =>
          customer_orders db s e c = maxCustomerOrders db s e l) = some c₀
        ∧ customer_orders db s e c₀ = maxCustomerOrders db s e l
        ∧ l.foldl (topCustomerStep db s e) acc
            = (some c₀.user, customer_orders db s e c₀)) := by
  induction l with
  | nil =>
    intro acc
    refine ⟨fun _ => rfl, fun hlt => ?_⟩
    simp only [maxCustomerOrders, List.foldr_nil] at hlt
    omega
  | cons c rest ih =>
    intro acc
    constructor
    · intro hle
      rw [maxCustomerOrders_cons] at hle
      have hstep : topCustomerStep db s e acc c = acc := by
        simp only [topCustomerStep]
        rw [if_neg (by omega)]
      rw [List.foldl_cons, hstep]
      exact (ih acc).1 (by omega)
    · intro hlt
      rw [maxCustomerOrders_cons] at hlt
      rw [List.foldl_cons]
      by_cases hcc : acc.2 < customer_orders db s e c
      · have hstep : topCustomerStep db s e acc c
            = (some c.user, customer_orders db s e c) := by
          simp only [topCustomerStep]
          rw [if_pos hcc]
        rw [hstep]
        by_cases hMR : maxCustomerOrders db s e rest ≤ customer_orders db s e c
        · have hM : maxCustomerOrders db s e (c :: rest)
              = customer_orders db s e c := by
            rw [maxCustomerOrders_cons]; omega
          refine ⟨c, ?_, ?_, ?_⟩
          · rw [hM]
            simp [List.find?_cons]
          · rw [hM]
          · exact (ih (some c.user, customer_orders db s e c)).1 hMR
        · push_neg at hMR
          have hM : maxCustomerOrders db s e (c :: rest)
              = maxCustomerOrders db s e rest := by
            rw [maxCustomerOrders_cons]; omega
          obtain ⟨c₀, hfind, hcnt, hfold⟩ :=
            (ih (some c.user, customer_orders db s e c)).2 hMR
          refine ⟨c₀, ?_, ?_, hfold⟩
          · rw [hM, List.find?_cons]
            have hne : ¬(customer_orders db s e c
                = maxCustomerOrders db s e rest) := by omega
            simp only [hne, decide_eq_false, Bool.false_eq_true, if_false]
            exact hfind
          · rw [hM]; exact hcnt
      · push_neg at hcc
        have hstep : topCustomerStep db s e acc c = acc := by
          simp only [topCustomerStep]
          rw [if_neg (by omega)]
        rw [hstep]
        have hMR : acc.2 < maxCustomerOrders db s e rest := by omega
        have hM : maxCustomerOrders db s e (c :: rest)
            = maxCustomerOrders db s e rest := by
          rw [maxCustomerOrders_cons]; omega
        obtain ⟨c₀, hfind, hcnt, hfold⟩ := (ih acc).2 hMR
        refine ⟨c₀, ?_, ?_, hfold⟩
        · rw [hM, List.find?_cons]
          have hne : ¬(customer_orders db s e c
              = maxCustomerOrders db s e rest) := by omega
          simp only [hne, decide_eq_false, Bool.false_eq_true, if_false]
          exact hfind
        · rw [hM]; exact hcnt

theorem filter_completed_type (l : List Job) (ty : String) :
    ((l.filter fun j => j.state = "completed").filter fun j => j.job_type = ty)
      = l.filter fun j => j.state = "completed" && j.job_type = ty := by
  induction l with
  | nil => rfl
  | cons j rest ih =>
    by_cases hs : j.state = "completed" <;> by_cases ht : j.job_type = ty <;>
      simp [List.filter_cons, hs, ht, ih]

theorem avg_or_zero_spec (l : List Job) (ty : String) :
    (sqlAvg (((l.filter fun j => j.state = "completed").filter
        fun j => j.job_type = ty).filterMap Job.completion_time)).getD 0
      = if (l.filter fun j => j.state = "completed" && j.job_type = ty) = []
        then 0
        else listMean ((l.filter fun j =>
          j.state = "completed" && j.job_type = ty).filterMap
            Job.completion_time) := by
  rw [filter_completed_type]
  by_cases hl : (l.filter fun j => j.state = "completed" && j.job_type = ty) = []
  · simp [hl, sqlAvg]
  · rw [if_neg hl]
    by_cases hv : ((l.filter fun j =>
        j.state = "completed" && j.job_type = ty).filterMap Job.completion_time) = []
    · rw [hv]
      simp [sqlAvg, listMean]
    · simp [sqlAvg, hv, listMean]

/-- C2 (amended): for every year in `datetime.date`'s representable range
1..9999, `get_quarter_dates` returns (Jan 1, Mar 31) for tag `Q1`,
(Apr 1, Jun 30) for `Q2`, (Jul 1, Sep 30) for `Q3`, (Oct 1, Dec 31) for
`Q4`; for every year it raises `InvalidQuarter` if and only if the tag is
outside {Q1, Q2, Q3, Q4}; and for a valid tag with a year outside 1..9999
it raises the date constructor's out-of-range `ValueError` instead of
returning. -/
theorem quarter_dates_spec (q : String) (y : Int) (hy : 1 ≤ y ∧ y ≤ 9999) :
    get_quarter_dates "Q1" y = .ok (⟨y, 1, 1⟩, ⟨y, 3, 31⟩)
  ∧ get_quarter_dates "Q2" y = .ok (⟨y, 4, 1⟩, ⟨y, 6, 30⟩)
  ∧ get_quarter_dates "Q3" y = .ok (⟨y, 7, 1⟩, ⟨y, 9, 30⟩)
  ∧ get_quarter_dates "Q4" y = .ok (⟨y, 10, 1⟩, ⟨y, 12, 31⟩)
  ∧ (get_quarter_dates q y = .error .invalidQuarter ↔
      ¬(q = "Q1" ∨ q = "Q2" ∨ q = "Q3" ∨ q = "Q4"))
  ∧ (∀ (qq : String) (z : Int),
      (qq = "Q1" ∨ qq = "Q2" ∨ qq = "Q3" ∨ qq = "Q4") →
      ¬(1 ≤ z ∧ z ≤ 9999) →
      get_quarter_dates qq z = .error .yearOutOfRange) := by
  refine ⟨?_, ?_, ?_, ?_, get_quarter_dates_error_iff q y, ?_⟩
  · simp [get_quarter_dates, hy]
  · simp [get_quarter_dates, hy]
  · simp [get_quarter_dates, hy]
  · simp [get_quarter_dates, hy]
  · intro qq z hqq hz
    rcases hqq with h | h | h | h <;> subst h <;> simp [get_quarter_dates, hz]

/-- C2 counterexample: at year 0 — outside `datetime.date`'s 1..9999 — the
valid tag `Q1` raises the year-out-of-range `ValueError` instead of
returning (Jan 1, Mar 31) of year 0, refuting both the every-integer-year
equations and the raises-iff-invalid-tag biconditional of the original
claim. -/
theorem quarter_dates_year_zero_raises :
    get_quarter_dates "Q1" 0 = .error .yearOutOfRange
  ∧ ¬get_quarter_dates "Q1" 0 = .ok (⟨0, 1, 1⟩, ⟨0, 3, 31⟩) := by
  refine ⟨rfl, ?_⟩
  intro h
  rw [show get_quarter_dates "Q1" 0 = .error .yearOutOfRange from rfl] at h
  exact Except.noConfusion h

/-- C3: when both endpoints resolve, the report's range is exactly
(min of the two quarter start dates, max of the two quarter end dates), and
it is unchanged when the from- and to-endpoints are swapped — in particular
when the from-endpoint is chronologically after the to-endpoint. -/
theorem date_range_min_max_swap (r : Report) (p q : Date × Date)
    (h1 : get_quarter_dates r.quarter_from r.year_from = .ok p)
    (h2 : get_quarter_dates r.quarter_to r.year_to = .ok q) :
    get_date_range_for_report r = .ok (Date.minD p.1 q.1, Date.maxD p.2 q.2)
  ∧ get_date_range_for_report (swapEndpoints r) = get_date_range_for_report r := by
  have hr := get_date_range_ok r p q h1 h2
  have hs : get_date_range_for_report (swapEndpoints r)
      = .ok (Date.minD q.1 p.1, Date.maxD q.2 p.2) :=
    get_date_range_ok (swapEndpoints r) q p h2 h1
  refine ⟨hr, ?_⟩
  rw [hs, hr, Date.minD_comm q.1 p.1, Date.maxD_comm q.2 p.2]

/-- Witness for C3 at a report whose from-endpoint (Q3 2024) lies after its
to-endpoint (Q1 2023). -/
theorem date_range_min_max_swap_witness :
    get_quarter_dates backwardsReport.quarter_from backwardsReport.year_from
        = .ok (⟨2024, 7, 1⟩, ⟨2024, 9, 30⟩)
  ∧ get_quarter_dates backwardsReport.quarter_to backwardsReport.year_to
        = .ok (⟨2023, 1, 1⟩, ⟨2023, 3, 31⟩)
  ∧ get_date_range_for_report backwardsReport
        = .ok (⟨2023, 1, 1⟩, ⟨2024, 9, 30⟩)
  ∧ get_date_range_for_report (swapEndpoints backwardsReport)
        = get_date_range_for_report backwardsReport := by
  refine ⟨rfl, rfl, ?_, ?_⟩
  · exact (date_range_min_max_swap backwardsReport
      (⟨2024, 7, 1⟩, ⟨2024, 9, 30⟩) (⟨2023, 1, 1⟩, ⟨2023, 3, 31⟩) rfl rfl).1
  · exact (date_range_min_max_swap backwardsReport
      (⟨2024, 7, 1⟩, ⟨2024, 9, 30⟩) (⟨2023, 1, 1⟩, ⟨2023, 3, 31⟩) rfl rfl).2

/-- C4: the stored top manager is the first manager, in enumeration order,
whose in-range order count equals the maximum over all managers (so ties go
to the earlier manager and revenue never breaks ties);
`total_orders_by_top_manager` is that maximum; when no manager has an
in-range order the field is unset and the count is 0; the top customer obeys
the same rule. -/
theorem top_performer_first_max (db : DB) (s e : Date) :
    ((userRow db s e).top_performing_account_manager
        = if maxManagerOrders db s e db.managers = 0 then none
          else (db.managers.find? fun m =>
            (manager_orders db s e m).length
              = maxManagerOrders db s e db.managers).map AccountManager.user)
  ∧ (userRow db s e).total_orders_by_top_manager
      = maxManagerOrders db s e db.managers
  ∧ ((userRow db s e).top_customer
        = if maxCustomerOrders db s e db.customers = 0 then none
          else (db.customers.find? fun c =>
            customer_orders db s e c
              = maxCustomerOrders db s e db.customers).map Customer.user) := by
  refine ⟨?_, ?_, ?_⟩
  · by_cases h0 : maxManagerOrders db s e db.managers = 0
    · have hfold := (topManagerLoop_spec db s e db.managers (none, 0, 0)).1
        (by omega)
      simp only [userRow]
      rw [hfold, if_pos h0]
    · obtain ⟨m₀, hfind, hcnt, hfold⟩ :=
        (topManagerLoop_spec db s e db.managers (none, 0, 0)).2
          (Nat.pos_of_ne_zero h0)
      simp only [userRow]
      rw [hfold, if_neg h0, hfind]
      rfl
  · by_cases h0 : maxManagerOrders db s e db.managers = 0
    · have hfold := (topManagerLoop_spec db s e db.managers (none, 0, 0)).1
        (by omega)
      simp only [userRow]
      rw [hfold, h0]
    · obtain ⟨m₀, hfind, hcnt, hfold⟩ :=
        (topManagerLoop_spec db s e db.managers (none, 0, 0)).2
          (Nat.pos_of_ne_zero h0)
      simp only [userRow]
      rw [hfold]
      exact hcnt
  · by_cases h0 : maxCustomerOrders db s e db.customers = 0
    · have hfold := (topCustomerLoop_spec db s e db.customers (none, 0)).1
        (by omega)
      simp only [userRow]
      rw [hfold, if_pos h0]
    · obtain ⟨c₀, hfind, hcnt, hfold⟩ :=
        (topCustomerLoop_spec db s e db.customers (none, 0)).2
          (Nat.pos_of_ne_zero h0)
      simp only [userRow]
      rw [hfold, if_neg h0, hfind]
      rfl

/-- C6: per job type, the stored average completion time is exactly 0 (never
unset) when no completed job of that type is in range, and otherwise it is
the mean of the recorded completion times of those jobs. -/
theorem job_avg_completion_zero_default (db : DB) (s e : Date) :
    ((jobRow db s e).avg_completion_time_regular
      = if ((jobs_in_period db s e).filter fun j =>
            j.state = "completed" && j.job_type = "regular") = [] then 0
        else listMean (((jobs_in_period db s e).filter fun j =>
            j.state = "completed" && j.job_type = "regular").filterMap
              Job.completion_time))
  ∧ ((jobRow db s e).avg_completion_time_wafer_run
      = if ((jobs_in_period db s e).filter fun j =>
            j.state = "completed" && j.job_type = "wafer_run") = [] then 0
        else listMean (((jobs_in_period db s e).filter fun j =>
            j.state = "completed" && j.job_type = "wafer_run").filterMap
              Job.completion_time)) := by
  constructor
  · have h := avg_or_zero_spec (jobs_in_period db s e) "regular"
    simpa [jobRow] using h
  · have h := avg_or_zero_spec (jobs_in_period db s e) "wafer_run"
    simpa [jobRow] using h

theorem upsert_characterization {α : Type} (t : List (Nat × α)) (k : Nat)
    (v : α) :
    ((t.find? fun p => p.1 = k) = none → upsert t k v = t ++ [(k, v)])
  ∧ ((t.find? fun p => p.1 = k).isSome →
      (upsert t k v).map Prod.fst = t.map Prod.fst ∧
      ((upsert t k v).find? fun p => p.1 = k) = some (k, v)) := by
  constructor
  · intro h
    simp [upsert, h]
  · intro h
    rw [upsert, if_pos h]
    refine ⟨keys_map_upd t k v, ?_⟩
    rw [find?_map_upd]
    obtain ⟨q, hq⟩ := Option.isSome_iff_exists.mp h
    rw [hq]
    rfl

/-- C1: recomputing a report's statistics a second time against the same
underlying data stores exactly the field values the first run stored: the
second run overwrites every row with identical values and creates no new
row (the whole orchestrator state is a fixed point). -/
theorem recompute_idempotent (db : DB) (r : Report) (t : Tables) :
    calculate_report_statistics db r (calculate_report_statistics db r t).1
      = calculate_report_statistics db r t := by
  cases hr : get_date_range_for_report r with
  | error e =>
    have hj : ∀ u, calculate_job_statistics db r u = .error e := fun u => by
      simp [calculate_job_statistics, hr]
    have ho : ∀ u, calculate_order_statistics db r u = .error e := fun u => by
      simp [calculate_order_statistics, hr]
    have hu : ∀ u, calculate_user_statistics db r u = .error e := fun u => by
      simp [calculate_user_statistics, hr]
    by_cases hA : r.report_type = "job" ∨ r.report_type = "combined" <;>
      by_cases hB : r.report_type = "order" ∨ r.report_type = "combined" <;>
        by_cases hC : r.report_type = "user" ∨ r.report_type = "combined" <;>
          simp [calculate_report_statistics, runStep, hA, hB, hC, hj, ho, hu]
  | ok sd =>
    obtain ⟨s, e⟩ := sd
    have hj : ∀ u, calculate_job_statistics db r u
        = .ok { u with jobT := upsert u.jobT r.id (jobRow db s e) } := fun u => by
      simp [calculate_job_statistics, hr]
    have ho : ∀ u, calculate_order_statistics db r u
        = .ok { u with orderT := upsert u.orderT r.id (orderRow db s e) } :=
      fun u => by simp [calculate_order_statistics, hr]
    have hu : ∀ u, calculate_user_statistics db r u
        = .ok { u with userT := upsert u.userT r.id (userRow db s e) } :=
      fun u => by simp [calculate_user_statistics, hr]
    by_cases hA : r.report_type = "job" ∨ r.report_type = "combined" <;>
      by_cases hB : r.report_type = "order" ∨ r.report_type = "combined" <;>
        by_cases hC : r.report_type = "user" ∨ r.report_type = "combined" <;>
          simp [calculate_report_statistics, runStep, hA, hB, hC, hj, ho, hu,
            upsert_idem]

/-- C8: each aggregator keeps at most one result row of its kind per report:
a run with no existing row appends exactly one row for this report, a run
with an existing row rewrites it in place (the key sequence is unchanged and
the row now holds the freshly computed values), and the other two tables are
untouched. -/
theorem one_result_row_per_report (db : DB) (r : Report) (t t' : Tables) :
    (calculate_job_statistics db r t = .ok t' →
      t'.orderT = t.orderT ∧ t'.userT = t.userT ∧
      ∃ v, ((t.jobT.find? fun p => p.1 = r.id) = none →
              t'.jobT = t.jobT ++ [(r.id, v)])
        ∧ ((t.jobT.find? fun p => p.1 = r.id).isSome →
              t'.jobT.map Prod.fst = t.jobT.map Prod.fst ∧
              (t'.jobT.find? fun p => p.1 = r.id) = some (r.id, v)))
  ∧ (calculate_order_statistics db r t = .ok t' →
      t'.jobT = t.jobT ∧ t'.userT = t.userT ∧
      ∃ v, ((t.orderT.find? fun p => p.1 = r.id) = none →
              t'.orderT = t.orderT ++ [(r.id, v)])
        ∧ ((t.orderT.find? fun p => p.1 = r.id).isSome →
              t'.orderT.map Prod.fst = t.orderT.map Prod.fst ∧
              (t'.orderT.find? fun p => p.1 = r.id) = some (r.id, v)))
  ∧ (calculate_user_statistics db r t = .ok t' →
      t'.jobT = t.jobT ∧ t'.orderT = t.orderT ∧
      ∃ v, ((t.userT.find? fun p => p.1 = r.id) = none →
              t'.userT = t.userT ++ [(r.id, v)])
        ∧ ((t.userT.find? fun p => p.1 = r.id).isSome →
              t'.userT.map Prod.fst = t.userT.map Prod.fst ∧
              (t'.userT.find? fun p => p.1 = r.id) = some (r.id, v))) := by
  refine ⟨?_, ?_, ?_⟩
  · intro h
    cases hr : get_date_range_for_report r with
    | error e =>
      rw [calculate_job_statistics, hr] at h
      exact absurd h (by simp)
    | ok sd =>
      obtain ⟨s, e⟩ := sd
      rw [calculate_job_statistics, hr] at h
      obtain rfl : ({ t with jobT := upsert t.jobT r.id (jobRow db s e) }
          : Tables) = t' := by simpa using h
      exact ⟨rfl, rfl, jobRow db s e,
        (upsert_characterization t.jobT r.id (jobRow db s e)).1,
        (upsert_characterization t.jobT r.id (jobRow db s e)).2⟩
  · intro h
    cases hr : get_date_range_for_report r with
    | error e =>
      rw [calculate_order_statistics, hr] at h
      exact absurd h (by simp)
    | ok sd =>
      obtain ⟨s, e⟩ := sd
      rw [calculate_order_statistics, hr] at h
      obtain rfl : ({ t with orderT := upsert t.orderT r.id (orderRow db s e) }
          : Tables) = t' := by simpa using h
      exact ⟨rfl, rfl, orderRow db s e,
        (upsert_characterization t.orderT r.id (orderRow db s e)).1,
        (upsert_characterization t.orderT r.id (orderRow db s e)).2⟩
  · intro h
    cases hr : get_date_range_for_report r with
    | error e =>
      rw [calculate_user_statistics, hr] at h
      exact absurd h (by simp)
    | ok sd =>
      obtain ⟨s, e⟩ := sd
      rw [calculate_user_statistics, hr] at h
      obtain rfl : ({ t with userT := upsert t.userT r.id (userRow db s e) }
          : Tables) = t' := by simpa using h
      exact ⟨rfl, rfl, userRow db s e,
        (upsert_characterization t.userT r.id (userRow db s e)).1,
        (upsert_characterization t.userT r.id (userRow db s e)).2⟩

/-- C10: for a report whose type is none of job/order/user/combined, the
orchestrator invokes no aggregator: it returns without error and all three
result tables are left exactly as they were. -/
theorem unknown_type_noop (db : DB) (r : Report) (t : Tables)
    (h1 : r.report_type ≠ "job") (h2 : r.report_type ≠ "order")
    (h3 : r.report_type ≠ "user") (h4 : r.report_type ≠ "combined") :
    calculate_report_statistics db r t = (t, none) := by
  simp [calculate_report_statistics, runStep, h1, h2, h3, h4]

/-- Witness for C10 at a report of type `summary` over valid quarters. -/
theorem unknown_type_noop_witness :
    summaryReport.report_type ≠ "job" ∧ summaryReport.report_type ≠ "order"
  ∧ summaryReport.report_type ≠ "user"
  ∧ summaryReport.report_type ≠ "combined"
  ∧ calculate_report_statistics emptyDB summaryReport emptyTables
      = (emptyTables, none) :=
  ⟨by decide, by decide, by decide, by decide,
   unknown_type_noop emptyDB summaryReport emptyTables
     (by decide) (by decide) (by decide) (by decide)⟩

/-- C7 (amended): for a report of one of the four recognised types with an
invalid quarter tag on either endpoint, the recomputation always raises —
the error propagates out of `Report.save` and no result row is created or
modified, the result tables coming back exactly as they were; the raised
error is the spec's `InvalidQuarter` whenever both endpoint years are
within `datetime.date`'s 1..9999 (a from-endpoint with a valid tag but an
out-of-range year raises its year `ValueError` first instead). -/
theorem invalid_quarter_aborts_save (db : DB) (reports : List (Nat × Report))
    (r : Report) (t : Tables)
    (hty : r.report_type = "job" ∨ r.report_type = "order" ∨
           r.report_type = "user" ∨ r.report_type = "combined")
    (hq : ¬(r.quarter_from = "Q1" ∨ r.quarter_from = "Q2" ∨
            r.quarter_from = "Q3" ∨ r.quarter_from = "Q4")
        ∨ ¬(r.quarter_to = "Q1" ∨ r.quarter_to = "Q2" ∨
            r.quarter_to = "Q3" ∨ r.quarter_to = "Q4")) :
    (∃ e, Report.save db reports r t = ((upsert reports r.id r, t), some e))
  ∧ (1 ≤ r.year_from ∧ r.year_from ≤ 9999 →
     1 ≤ r.year_to ∧ r.year_to ≤ 9999 →
      Report.save db reports r t
        = ((upsert reports r.id r, t), some .invalidQuarter)) := by
  constructor
  · obtain ⟨e, hr⟩ := get_date_range_error_exists_of_invalid r hq
    have hj : ∀ u, calculate_job_statistics db r u = .error e :=
      fun u => by simp [calculate_job_statistics, hr]
    have ho : ∀ u, calculate_order_statistics db r u = .error e :=
      fun u => by simp [calculate_order_statistics, hr]
    have hu : ∀ u, calculate_user_statistics db r u = .error e :=
      fun u => by simp [calculate_user_statistics, hr]
    refine ⟨e, ?_⟩
    rcases hty with h | h | h | h <;>
      simp [Report.save, calculate_report_statistics, runStep, h, hj, ho, hu]
  · intro hyf hyt
    have hr := get_date_range_invalid_quarter r hq hyf hyt
    have hj : ∀ u, calculate_job_statistics db r u = .error .invalidQuarter :=
      fun u => by simp [calculate_job_statistics, hr]
    have ho : ∀ u, calculate_order_statistics db r u = .error .invalidQuarter :=
      fun u => by simp [calculate_order_statistics, hr]
    have hu : ∀ u, calculate_user_statistics db r u = .error .invalidQuarter :=
      fun u => by simp [calculate_user_statistics, hr]
    rcases hty with h | h | h | h <;>
      simp [Report.save, calculate_report_statistics, runStep, h, hj, ho, hu]

/-- C7 counterexample, two failure modes of the original claim: a report
carrying the invalid tag `Q5` but an unrecognised type saves without
raising any error and without touching any result table; and a job-type
report whose to-endpoint carries `Q5` but whose from-endpoint has the
unrepresentable year 0 saves raising the year `ValueError`, not
`InvalidQuarter`. -/
theorem invalid_quarter_unknown_type_saves :
    ¬(metaReport.quarter_from = "Q1" ∨ metaReport.quarter_from = "Q2" ∨
      metaReport.quarter_from = "Q3" ∨ metaReport.quarter_from = "Q4")
  ∧ Report.save emptyDB [] metaReport emptyTables
      = (([(1, metaReport)], emptyTables), none)
  ∧ ¬(yearZeroReport.quarter_to = "Q1" ∨ yearZeroReport.quarter_to = "Q2" ∨
      yearZeroReport.quarter_to = "Q3" ∨ yearZeroReport.quarter_to = "Q4")
  ∧ Report.save emptyDB [] yearZeroReport emptyTables
      = (([(1, yearZeroReport)], emptyTables), some .yearOutOfRange) := by
  exact ⟨by decide, rfl, by decide, rfl⟩

/-- Witness for C7 (amended) at a job-type report carrying the tag `Q5`
with both years in range. -/
theorem invalid_quarter_aborts_save_witness :
    (badJobReport.report_type = "job" ∨ badJobReport.report_type = "order" ∨
     badJobReport.report_type = "user" ∨ badJobReport.report_type = "combined")
  ∧ (¬(badJobReport.quarter_from = "Q1" ∨ badJobReport.quarter_from = "Q2" ∨
       badJobReport.quarter_from = "Q3" ∨ badJobReport.quarter_from = "Q4")
     ∨ ¬(badJobReport.quarter_to = "Q1" ∨ badJobReport.quarter_to = "Q2" ∨
         badJobReport.quarter_to = "Q3" ∨ badJobReport.quarter_to = "Q4"))
  ∧ (1 ≤ badJobReport.year_from ∧ badJobReport.year_from ≤ 9999)
  ∧ (1 ≤ badJobReport.year_to ∧ badJobReport.year_to ≤ 9999)
  ∧ Report.save emptyDB [] badJobReport emptyTables
      = ((upsert [] badJobReport.id badJobReport, emptyTables),
         some .invalidQuarter) :=
  ⟨Or.inl rfl, Or.inl (by decide), by decide, by decide,
   (invalid_quarter_aborts_save emptyDB [] badJobReport emptyTables
     (Or.inl rfl) (Or.inl (by decide))).2 (by decide) (by decide)⟩

/-- C5: the truthiness slip `if avg_time:` drops a zero mean. Exactly one
in-range order with status `completed` and `completed_at` set exists in
this database — its processing duration is zero — yet the stored
`avg_processing_time` is `None` where the spec requires the mean (0.0). -/
theorem zero_mean_processing_time_dropped :
    ((orders_in_period zeroDurationDB ⟨2024, 1, 1⟩ ⟨2024, 3, 31⟩).filter
        fun o => o.status = "completed" && o.completed_at.isSome).length = 1
  ∧ (orderRow zeroDurationDB ⟨2024, 1, 1⟩ ⟨2024, 3, 31⟩).avg_processing_time
      = none := by
  constructor
  · rfl
  · norm_num [orderRow, orders_in_period, zeroDurationDB, sqlAvg, diffSec,
      dateLeDt, dtLeDate, DateTime.leb, Date.ltb, List.filter, List.filterMap]

/-- C9: the resolved Q1 2024 range ends on 2024-03-31, the database's one
job and one order both carry timestamps on that end date (noon), yet the
aggregators select neither: the `DateTimeField` is compared against the end
date coerced to midnight, so the end date is not inclusive. -/
theorem end_date_noon_excluded :
    get_date_range_for_report q1JobReport = .ok (⟨2024, 1, 1⟩, ⟨2024, 3, 31⟩)
  ∧ (endDateDB.jobs.map fun j => j.starting_date.date) = [⟨2024, 3, 31⟩]
  ∧ (jobRow endDateDB ⟨2024, 1, 1⟩ ⟨2024, 3, 31⟩).total_jobs = 0
  ∧ (endDateDB.orders.map fun o => o.created_at.date) = [⟨2024, 3, 31⟩]
  ∧ (orderRow endDateDB ⟨2024, 1, 1⟩ ⟨2024, 3, 31⟩).total_orders = 0 :=
  ⟨rfl, rfl, rfl, rfl, rfl⟩

/-- Witness for C2 (amended) at the in-range year 2024, with the accepted
tag `Q1` and the rejected tag `Q0`. -/
theorem quarter_dates_spec_witness :
    ((1 : Int) ≤ 2024 ∧ (2024 : Int) ≤ 9999)
  ∧ get_quarter_dates "Q1" 2024 = .ok (⟨2024, 1, 1⟩, ⟨2024, 3, 31⟩)
  ∧ get_quarter_dates "Q0" 2024 = .error .invalidQuarter :=
  ⟨by decide, (quarter_dates_spec "Q0" 2024 (by decide)).1,
   (quarter_dates_spec "Q0" 2024 (by decide)).2.2.2.2.1.mpr (by decide)⟩

/-- Witness for C8: running the job aggregator on empty tables appends
exactly one row, keyed by the report. -/
theorem one_result_row_per_report_witness :
    calculate_job_statistics emptyDB q1JobReport emptyTables
        = .ok ⟨[(1, jobRow emptyDB ⟨2024, 1, 1⟩ ⟨2024, 3, 31⟩)], [], []⟩
  ∧ ((⟨[(1, jobRow emptyDB ⟨2024, 1, 1⟩ ⟨2024, 3, 31⟩)], [], []⟩ : Tables)).jobT.map
      Prod.fst = [1] := by
  refine ⟨rfl, ?_⟩
  obtain ⟨-, -, v, hc, -⟩ :=
    (one_result_row_per_report emptyDB q1JobReport emptyTables
      ⟨[(1, jobRow emptyDB ⟨2024, 1, 1⟩ ⟨2024, 3, 31⟩)], [], []⟩).1 rfl
  rw [hc rfl]
  rfl

end JePPIX
